import Mathlib

/-!
# Rate-limit resource adapter (`ibm/resource_ibm_cis_rate_limit.go`)

A shallow embedding of the expand / flatten mapping and of the Read, Update,
Delete and Exists lifecycle operations, followed by the properties of the
specification that they satisfy or break.

Conventions of the embedding.

* A Go `interface{}` value is a `Value`; a `map[string]interface{}` is a
  `GoMap`, an association list that is only ever read through `GoMap.lookup`
  and `GoMap.index` and extended through `GoMap.set`, so the order of its
  entries carries no meaning.
* A Go slice is a `List`, except the bypass slice, where the code separates the nil
  (absent) slice from the empty one: that one is a `Slice`, `none` for nil.
* A Go `int` is an `Int`: the code never does arithmetic on one, it only
  copies it and compares it with `0`.
* A Go `error` is a `GoError`: `none` is `nil`, `some msg` carries `Error()`.
* A run-time panic (failed type assertion, index out of range, nil pointer
  dereference) is the `Except.error` side of `Except Panic`.
-/

set_option autoImplicit false

namespace RateLimit

/-! ## Go values -/

/-- Dynamic values held by an `interface{}`. -/
inductive Value where
  | null
  | str (s : String)
  | int (n : Int)
  | bool (b : Bool)
  | list (xs : List Value)
  | map (kvs : List (String × Value))
  | set (xs : List Value)

/-- A `map[string]interface{}`. -/
abbrev GoMap := List (String × Value)

/-- A Go slice whose nil value is kept apart from the empty slice: `none` is nil. -/
abbrev Slice (α : Type) := Option (List α)

/-- The elements a `range` over the slice visits; `len` is the length of this list. -/
def Slice.toList {α : Type} (s : Slice α) : List α :=
  s.getD []

/-- A Go `error`: `none` is `nil`. -/
abbrev GoError := Option String

/-- The run-time panics the code can raise. -/
inductive Panic where
  | typeAssertion
  | indexOutOfRange
  | nilDereference
  deriving DecidableEq

/-- Two-valued map read `v, ok := m[k]`. -/
def GoMap.lookup (m : GoMap) (k : String) : Option Value :=
  match m with
  | [] => none
  | (k', v) :: rest => if k' = k then some v else GoMap.lookup rest k

/-- One-valued map read `m[k]`: the nil interface when the key is missing. -/
def GoMap.index (m : GoMap) (k : String) : Value :=
  (GoMap.lookup m k).getD Value.null

/-- Map write `m[k] = v`. -/
def GoMap.set (m : GoMap) (k : String) (v : Value) : GoMap :=
  match m with
  | [] => [(k, v)]
  | (k', v') :: rest => if k' = k then (k, v) :: rest else (k', v') :: GoMap.set rest k v

/-- Type assertion `v.(string)`. -/
def Value.asString : Value → Except Panic String
  | Value.str s => pure s
  | _ => throw Panic.typeAssertion

/-- Type assertion `v.(int)`. -/
def Value.asInt : Value → Except Panic Int
  | Value.int n => pure n
  | _ => throw Panic.typeAssertion

/-- Type assertion `v.(bool)`. -/
def Value.asBool : Value → Except Panic Bool
  | Value.bool b => pure b
  | _ => throw Panic.typeAssertion

/-- Type assertion `v.([]interface{})`. -/
def Value.asList : Value → Except Panic (List Value)
  | Value.list xs => pure xs
  | _ => throw Panic.typeAssertion

/-- Type assertion `v.(map[string]interface{})`. -/
def Value.asMap : Value → Except Panic GoMap
  | Value.map kvs => pure kvs
  | _ => throw Panic.typeAssertion

/-- Two-valued type assertion `m, _ := v.(map[string]interface{})`: the nil map on failure. -/
def Value.asMapOk : Value → GoMap
  | Value.map kvs => kvs
  | _ => []

/-- Type assertion `v.(*schema.Set)` followed by `.List()`. -/
def Value.asSetList : Value → Except Panic (List Value)
  | Value.set xs => pure xs
  | _ => throw Panic.typeAssertion

/-- Index expression `xs[0]`. -/
def first (xs : List Value) : Except Panic Value :=
  match xs with
  | [] => throw Panic.indexOutOfRange
  | x :: _ => pure x

/-- Pointer dereference `*p`. -/
def deref {α : Type} (p : Option α) : Except Panic α :=
  match p with
  | none => throw Panic.nilDereference
  | some a => pure a

/-- A `[]map[string]interface{}` seen as a value. -/
def Value.ofMaps (ms : List GoMap) : Value :=
  Value.list (ms.map Value.map)

/-- Zero value test used by `GetOk`. -/
def Value.isZero : Value → Bool
  | Value.null => true
  | Value.str s => s == ""
  | Value.int n => n == 0
  | Value.bool b => !b
  | Value.list xs => xs.isEmpty
  | Value.map kvs => kvs.isEmpty
  | Value.set xs => xs.isEmpty

/-! ## `strings.Contains` -/

/-- Substring test on character lists. -/
def containsChars (s sub : List Char) : Bool :=
  match s with
  | [] => sub.isEmpty
  | c :: cs => sub.isPrefixOf (c :: cs) || containsChars cs sub

end RateLimit

namespace strings

/-- Go `strings.Contains`. -/
def Contains (s substr : String) : Bool :=
  RateLimit.containsChars s.data substr.data

end strings

namespace RateLimit

/-! ## Remote API records (`cisv1`), as far as the source uses their fields -/

structure ActionResponse where
  ContentType : String := ""
  Body : String := ""
  deriving DecidableEq

structure RateLimitAction where
  Mode : String := ""
  Timeout : Int := 0
  Response : Option ActionResponse := none
  deriving DecidableEq

structure MatchRequest where
  Methods : List String := []
  Schemes : List String := []
  URL : String := ""
  deriving DecidableEq

structure MatchResponseHeader where
  Name : String := ""
  Op : String := ""
  Value : String := ""
  deriving DecidableEq

structure MatchResponse where
  Statuses : List Int := []
  OriginTraffic : Option Bool := none
  Headers : List MatchResponseHeader := []
  deriving DecidableEq

structure RateLimitMatch where
  Request : MatchRequest := {}
  Response : MatchResponse := {}
  deriving DecidableEq

structure RateLimitCorrelate where
  By : String := ""
  deriving DecidableEq

structure RateLimitByPass where
  Name : String := ""
  Value : String := ""
  deriving DecidableEq

structure RateLimitRecord where
  ID : String := ""
  Disabled : Bool := false
  Description : String := ""
  Threshold : Int := 0
  Period : Int := 0
  Action : RateLimitAction := {}
  Match : RateLimitMatch := {}
  Correlate : Option RateLimitCorrelate := none
  Bypass : Slice RateLimitByPass := none
  deriving DecidableEq

/-! ## `schema.ResourceData` -/

/-- The engine's state object: the identifier, the values stored under the keys, and the
keys for which the engine reports a change. It is a plain store: `Set` keeps the value as
given and `Get` hands it back; the normalisation the engine applies through the schema when
a value is read back is not part of it. -/
structure ResourceData where
  id : String
  values : GoMap
  changed : List String

/-- Method `d.Id()`. -/
def ResourceData.Id (d : ResourceData) : String := d.id

/-- Method `d.SetId(v)`. -/
def ResourceData.SetId (d : ResourceData) (v : String) : ResourceData :=
  { d with id := v }

/-- The zero value of each top-level field of the schema (source lines 29-206): what `Get`
returns for a key that holds nothing. -/
def schemaZero (key : String) : Value :=
  if key = "cis_id" ∨ key = "domain_id" ∨ key = "description" ∨ key = "rule_id" then Value.str ""
  else if key = "disabled" then Value.bool false
  else if key = "threshold" ∨ key = "period" then Value.int 0
  else if key = "bypass" ∨ key = "correlate" ∨ key = "action" ∨ key = "match" then Value.list []
  else Value.null

/-- Method `d.Get(key)`: the stored value, or the zero value of the field. -/
def ResourceData.Get (d : ResourceData) (key : String) : Value :=
  (GoMap.lookup d.values key).getD (schemaZero key)

/-- Method `d.GetOk(key)`: the value, and whether it is set to a non-zero value. -/
def ResourceData.GetOk (d : ResourceData) (key : String) : Value × Bool :=
  (d.Get key, !(d.Get key).isZero)

/-- Method `d.Set(key, value)`; the error it returns is dropped by every caller. -/
def ResourceData.Set (d : ResourceData) (key : String) (value : Value) : ResourceData :=
  { d with values := GoMap.set d.values key value }

/-- Method `d.HasChange(key)`. -/
def ResourceData.HasChange (d : ResourceData) (key : String) : Bool :=
  d.changed.contains key

def cisRLThreshold : String := "threshold"
def cisRLPeriod : String := "period"
def cisRLDescription : String := "description"

/-! ## Expand -/

/-- The tail of `expandRateLimitAction` (source lines 410-421), reached when neither
validation branch returns. -/
def expandRateLimitAction.finish (actionRecord : GoMap) (mode : String) (timeout : Int) :
    Except Panic (RateLimitAction × GoError) := do
  let action : RateLimitAction := { Mode := mode, Timeout := timeout }
  match GoMap.lookup actionRecord "response" with
  | none => pure (action, none)
  | some r =>
    let rs ← r.asList
    if rs.length > 0 then
      let r0 ← first rs
      let actionResponse ← r0.asMap
      let contentType ← (GoMap.index actionResponse "content_type").asString
      let body ← (GoMap.index actionResponse "body").asString
      pure ({ action with Response := some { ContentType := contentType, Body := body } }, none)
    else
      pure (action, none)

/-- Function `expandRateLimitAction` (source lines 397-422). -/
def expandRateLimitAction (d : ResourceData) : Except Panic (RateLimitAction × GoError) := do
  let l ← (d.Get "action").asList
  let a0 ← first l
  let actionRecord ← a0.asMap
  let mode ← (GoMap.index actionRecord "mode").asString
  let timeout ← (GoMap.index actionRecord "timeout").asInt
  let action : RateLimitAction := {}
  if timeout = 0 then
    if mode = "simulate" ∨ mode = "ban" then
      pure (action, some "For the mode 'simulate' and 'ban' timeout must be set.. valid range for timeout is 10 - 86400. %!s(<nil>)")
    else
      expandRateLimitAction.finish actionRecord mode timeout
  else
    if mode = "challenge" ∨ mode = "js_challenge" then
      pure (action, some "Timeout field is only valid for 'simulate' and 'ban' modes. %!s(<nil>)")
    else
      expandRateLimitAction.finish actionRecord mode timeout

/-- The set-valued fields of `expandRateLimitMatch`: `make([]string, set.Len())` filled
from `set.List()` with `.(string)` on each element. -/
def expandStrings (v : Value) : Except Panic (List String) := do
  let xs ← v.asSetList
  xs.mapM Value.asString

/-- The `status` field of `expandRateLimitMatch`: `.(int)` on each element of the set. -/
def expandInts (v : Value) : Except Panic (List Int) := do
  let xs ← v.asSetList
  xs.mapM Value.asInt

/-- The header loop of `expandRateLimitMatch` (source lines 473-480). -/
def expandRateLimitMatch.headers (hs : List Value) (responseHeaders : List MatchResponseHeader) :
    Except Panic (List MatchResponseHeader) :=
  match hs with
  | [] => pure responseHeaders
  | h :: rest => do
    let header := h.asMapOk
    let name ← (GoMap.index header "name").asString
    let op ← (GoMap.index header "op").asString
    let value ← (GoMap.index header "value").asString
    expandRateLimitMatch.headers rest (responseHeaders ++ [{ Name := name, Op := op, Value := value }])

/-- The `request` block of `expandRateLimitMatch` (source lines 431-453). -/
def expandRateLimitMatch.request (matchRecord : GoMap) (mtch : RateLimitMatch) :
    Except Panic RateLimitMatch :=
  match GoMap.lookup matchRecord "request" with
  | none => pure mtch
  | some matchReqRecord => do
    let rs ← matchReqRecord.asList
    if rs.length > 0 then
      let r0 ← first rs
      let matchRequestRecord ← r0.asMap
      let url ← (GoMap.index matchRequestRecord "url").asString
      let matchRequest : MatchRequest := { URL := url }
      let matchRequest ← match GoMap.lookup matchRequestRecord "methods" with
        | some methodsRecord => do
          let methods ← expandStrings methodsRecord
          pure { matchRequest with Methods := methods }
        | none => pure matchRequest
      let matchRequest ← match GoMap.lookup matchRequestRecord "schemes" with
        | some schemesRecord => do
          let schemes ← expandStrings schemesRecord
          pure { matchRequest with Schemes := schemes }
        | none => pure matchRequest
      pure { mtch with Request := matchRequest }
    else
      pure mtch

/-- The `response` block of `expandRateLimitMatch` (source lines 454-485). -/
def expandRateLimitMatch.response (matchRecord : GoMap) (mtch : RateLimitMatch) :
    Except Panic RateLimitMatch :=
  match GoMap.lookup matchRecord "response" with
  | none => pure mtch
  | some matchResRecord => do
    let rs ← matchResRecord.asList
    if rs.length > 0 then
      let r0 ← first rs
      let matchResponseRecord ← r0.asMap
      let matchResponse : MatchResponse := {}
      let matchResponse ← match GoMap.lookup matchResponseRecord "status" with
        | some statusRecord => do
          let statuses ← expandInts statusRecord
          pure { matchResponse with Statuses := statuses }
        | none => pure matchResponse
      let matchResponse ← match GoMap.lookup matchResponseRecord "origin_traffic" with
        | some originRecord => do
          let originTraffic ← originRecord.asBool
          pure { matchResponse with OriginTraffic := some originTraffic }
        | none => pure matchResponse
      let matchResponse ← match GoMap.lookup matchResponseRecord "headers" with
        | some headersRecord => do
          let matchResponseHeaders ← headersRecord.asList
          if matchResponseHeaders.length > 0 then
            let responseHeaders ← expandRateLimitMatch.headers matchResponseHeaders []
            pure { matchResponse with Headers := responseHeaders }
          else
            pure matchResponse
        | none => pure matchResponse
      pure { mtch with Response := matchResponse }
    else
      pure mtch

/-- Function `expandRateLimitMatch` (source lines 424-488). -/
def expandRateLimitMatch (d : ResourceData) : Except Panic (RateLimitMatch × GoError) := do
  let mtch : RateLimitMatch := {}
  if !(d.GetOk "match").2 then
    pure (mtch, none)
  else
    let l ← (d.GetOk "match").1.asList
    let m0 ← first l
    let matchRecord ← m0.asMap
    let mtch ← expandRateLimitMatch.request matchRecord mtch
    let mtch ← expandRateLimitMatch.response matchRecord mtch
    pure (mtch, none)

/-- Function `expandRateLimitCorrelate` (source lines 490-501). -/
def expandRateLimitCorrelate (d : ResourceData) : Except Panic (RateLimitCorrelate × GoError) := do
  let correlate : RateLimitCorrelate := {}
  if !(d.GetOk "correlate").2 then
    pure (correlate, none)
  else
    let l ← (d.GetOk "correlate").1.asList
    let c0 ← first l
    let correlateRecord ← c0.asMap
    let by_ ← (GoMap.index correlateRecord "by").asString
    pure ({ By := by_ }, none)

/-- The loop of `expandRateLimitBypass` (source lines 512-519). -/
def expandRateLimitBypass.loop (byPassKV : List Value) (byPassRecord : List RateLimitByPass) :
    Except Panic (List RateLimitByPass) :=
  match byPassKV with
  | [] => pure byPassRecord
  | kv :: rest => do
    let keyValue := kv.asMapOk
    let name ← (GoMap.index keyValue "name").asString
    let value ← (GoMap.index keyValue "value").asString
    expandRateLimitBypass.loop rest (byPassRecord ++ [{ Name := name, Value := value }])

/-- Function `expandRateLimitBypass` (source lines 503-523). The `!ok` return of line 506
hands back the unassigned named result, the nil slice; the other return hands back the slice
made by `make` and filled by the loop, which is never nil. -/
def expandRateLimitBypass (d : ResourceData) : Except Panic (Slice RateLimitByPass × GoError) := do
  if !(d.GetOk "bypass").2 then
    pure (none, none)
  else
    let byPassKV ← (d.GetOk "bypass").1.asList
    let byPassRecord ← expandRateLimitBypass.loop byPassKV []
    pure (some byPassRecord, none)

/-! ## Flatten -/

/-- Function `flattenRateLimitAction` (source lines 525-540). -/
def flattenRateLimitAction (action : RateLimitAction) : List GoMap :=
  let actionRecord : GoMap := [("mode", Value.str action.Mode), ("timeout", Value.int action.Timeout)]
  match action.Response with
  | some actionResponseRecord =>
    let actionResponse : GoMap :=
      [("content_type", Value.str actionResponseRecord.ContentType),
       ("body", Value.str actionResponseRecord.Body)]
    [GoMap.set actionRecord "response" (Value.ofMaps [actionResponse])]
  | none => [actionRecord]

/-- Function `flattenRateLimitMatchRequest` (source lines 551-567). -/
def flattenRateLimitMatchRequest (request : MatchRequest) : List GoMap :=
  let requestRecord : GoMap := []
  let methods := request.Methods.foldl (fun methods m => methods ++ [m]) []
  let requestRecord := GoMap.set requestRecord "methods" (Value.list (methods.map Value.str))
  let schemes := request.Schemes.foldl (fun schemes s => schemes ++ [s]) []
  let requestRecord := GoMap.set requestRecord "schemes" (Value.list (schemes.map Value.str))
  let requestRecord := GoMap.set requestRecord "url" (Value.str request.URL)
  [requestRecord]

/-- The `origin_traffic` step of `flattenRateLimitMatchResponse` (source lines 572-575):
the record and the flag after it. -/
def flattenRateLimitMatchResponse.origin (response : MatchResponse) (st : GoMap × Bool) : GoMap × Bool :=
  match response.OriginTraffic with
  | some originTraffic => (GoMap.set st.1 "origin_traffic" (Value.bool originTraffic), true)
  | none => st

/-- The `status` step of `flattenRateLimitMatchResponse` (source lines 577-584). -/
def flattenRateLimitMatchResponse.status (response : MatchResponse) (st : GoMap × Bool) : GoMap × Bool :=
  if response.Statuses.length > 0 then
    let statuses := response.Statuses.foldl (fun statuses s => statuses ++ [s]) []
    (GoMap.set st.1 "status" (Value.list (statuses.map Value.int)), true)
  else st

/-- The `headers` step of `flattenRateLimitMatchResponse` (source lines 586-598). -/
def flattenRateLimitMatchResponse.headers (response : MatchResponse) (st : GoMap × Bool) : GoMap × Bool :=
  if response.Headers.length > 0 then
    let headers : List GoMap := response.Headers.foldl (fun headers h =>
      let header : GoMap := []
      let header := GoMap.set header "name" (Value.str h.Name)
      let header := GoMap.set header "op" (Value.str h.Op)
      let header := GoMap.set header "value" (Value.str h.Value)
      headers ++ [header]) []
    (GoMap.set st.1 "headers" (Value.ofMaps headers), true)
  else st

/-- Function `flattenRateLimitMatchResponse` (source lines 569-603). -/
def flattenRateLimitMatchResponse (response : MatchResponse) : List Value :=
  let st : GoMap × Bool := ([], false)
  let st := flattenRateLimitMatchResponse.origin response st
  let st := flattenRateLimitMatchResponse.status response st
  let st := flattenRateLimitMatchResponse.headers response st
  if st.2 = true then [Value.map st.1] else []

/-- Function `flattenRateLimitMatch` (source lines 542-549). -/
def flattenRateLimitMatch (mtch : RateLimitMatch) : List GoMap :=
  let matchRecord : GoMap := []
  let matchRecord := GoMap.set matchRecord "request" (Value.ofMaps (flattenRateLimitMatchRequest mtch.Request))
  let matchRecord := GoMap.set matchRecord "response" (Value.list (flattenRateLimitMatchResponse mtch.Response))
  [matchRecord]

/-- Function `flattenRateLimitCorrelate` (source lines 604-610). -/
def flattenRateLimitCorrelate (correlate : RateLimitCorrelate) : List GoMap :=
  let correlateRecord : GoMap := []
  let correlateRecord := if correlate.By ≠ "" then GoMap.set correlateRecord "by" (Value.str correlate.By) else correlateRecord
  [correlateRecord]

/-- Function `flattenRateLimitByPass` (source lines 612-624). -/
def flattenRateLimitByPass (byPass : Slice RateLimitByPass) : List GoMap :=
  let byPassRecord : List GoMap := []
  if byPass.toList.length > 0 then
    byPass.toList.foldl (fun byPassRecord b =>
      byPassRecord ++ [[("name", Value.str b.Name), ("value", Value.str b.Value)]]) byPassRecord
  else byPassRecord

/-- An action block as the schema (source lines 87-123) shapes it: `mode`, `timeout`, and
the `response` key either missing or holding a list of `(content_type, body)` blocks. -/
structure ActionBlock where
  mode : String
  timeout : Int
  response : Option (List (String × String))

/-- The `map[string]interface{}` of an action block. -/
def ActionBlock.toMap (b : ActionBlock) : GoMap :=
  [("mode", Value.str b.mode), ("timeout", Value.int b.timeout)] ++
    match b.response with
    | none => []
    | some rs => [("response", Value.ofMaps (rs.map fun r =>
        [("content_type", Value.str r.1), ("body", Value.str r.2)]))]

/-- The configuration value of an action block. -/
def ActionBlock.toValue (b : ActionBlock) : Value :=
  Value.map b.toMap

/-- The first response block of an action block, when it has one. -/
def ActionBlock.firstResponse (b : ActionBlock) : Option (String × String) :=
  match b.response with
  | some (r :: _) => some r
  | _ => none

/-! ## Identifier codec

`convertTfToCisThreeVar` and `convertCisToTfTwoVar` are defined outside this source
file; the lifecycle operations take them as a `Codec`. -/

/-- What `convertTfToCisThreeVar` returns: three identifiers and an error. -/
structure ThreeVar where
  recordID : String
  zoneID : String
  cisID : String
  err : GoError
  deriving DecidableEq

/-- The two codec functions the lifecycle operations call. -/
structure Codec where
  convertTfToCisThreeVar : String → ThreeVar
  convertCisToTfTwoVar : String → String → String

/-- Split a character list at every occurrence of the separator. -/
def splitChars (sep : Char) (s : List Char) : List (List Char) :=
  match s with
  | [] => [[]]
  | c :: cs =>
    if c = sep then [] :: splitChars sep cs
    else match splitChars sep cs with
      | [] => [[c]]
      | p :: ps => (c :: p) :: ps

/-- Modelled from the spec: the three-part decode, absent from the source file. Section 4.1:
it splits on the separator and fails when the part count is wrong; here the three parts come
back in the order rule, zone, instance, and a failure returns empty identifiers. -/
def specConvertTfToCisThreeVar (sep : Char) (id : String) : ThreeVar :=
  match splitChars sep id.data with
  | [r, z, c] => { recordID := String.mk r, zoneID := String.mk z, cisID := String.mk c, err := none }
  | _ => { recordID := "", zoneID := "", cisID := "", err := some "FormatError" }

/-- Modelled from the spec: the two-part encode, absent from the source file. Section 6:
`zoneID<SEP>accountID`. -/
def specConvertCisToTfTwoVar (sep : Char) (zoneID cisID : String) : String :=
  zoneID ++ String.singleton sep ++ cisID

/-- Modelled from the spec: the codec of sections 4.1 and 6 for a given separator. -/
def specCodec (sep : Char) : Codec :=
  { convertTfToCisThreeVar := specConvertTfToCisThreeVar sep
    convertCisToTfTwoVar := specConvertCisToTfTwoVar sep }

/-! ## Remote client -/

/-- The remote calls `cisClient.RateLimit()` offers to the four operations, over a remote
state `σ`; each takes `cisID`, `zoneID`, `recordID` in the order of the source. -/
structure RateLimitClient (σ : Type) where
  GetRateLimit : σ → String → String → String → (Option RateLimitRecord × GoError) × σ
  UpdateRateLimit : σ → String → String → String → RateLimitRecord →
    (Option RateLimitRecord × GoError) × σ
  DeleteRateLimit : σ → String → String → String → GoError × σ

/-- The `meta` argument: `CisAPI()` yields an error or the client. -/
structure ClientSession (σ : Type) where
  CisAPI : Except String (RateLimitClient σ)

/-- A remote call, as issued. -/
inductive Call where
  | GetRateLimit (cisID zoneID recordID : String)
  | UpdateRateLimit (cisID zoneID recordID : String) (record : RateLimitRecord)
  | DeleteRateLimit (cisID zoneID recordID : String)
  deriving DecidableEq

/-- The remote state together with the calls issued so far, oldest first. -/
structure World (σ : Type) where
  remote : σ
  calls : List Call

/-- The 404 signal the operations look for in `err.Error()`. -/
def notFound (e : String) : Bool :=
  strings.Contains e "Request failed with status code: 404"

/-! ## Lifecycle operations -/

/-- The state writes of `resourceIBMCISRateLimitRead` (source lines 291-302). -/
def resourceIBMCISRateLimitRead.store (cx : Codec) (ids : ThreeVar) (rule : RateLimitRecord)
    (d : ResourceData) : Except Panic ResourceData := do
  let d := d.Set "cis_id" (Value.str ids.cisID)
  let d := d.Set "domain_id" (Value.str (cx.convertCisToTfTwoVar ids.zoneID ids.cisID))
  let d := d.Set "rule_id" (Value.str ids.recordID)
  let d := d.Set "disabled" (Value.bool rule.Disabled)
  let d := d.Set cisRLDescription (Value.str rule.Description)
  let d := d.Set cisRLThreshold (Value.int rule.Threshold)
  let d := d.Set cisRLPeriod (Value.int rule.Period)
  let d := d.Set "action" (Value.ofMaps (flattenRateLimitAction rule.Action))
  let d := d.Set "match" (Value.ofMaps (flattenRateLimitMatch rule.Match))
  let correlate ← deref rule.Correlate
  let d := d.Set "correlate" (Value.ofMaps (flattenRateLimitCorrelate correlate))
  let d := d.Set "bypass" (Value.ofMaps (flattenRateLimitByPass rule.Bypass))
  pure d

/-- Function `resourceIBMCISRateLimitRead` (source lines 272-305). The error of
`convertTfToCisThreeVar` is assigned to `_`; the test after it reads the `CisAPI` error,
which is nil there. -/
def resourceIBMCISRateLimitRead {σ : Type} (cx : Codec) (meta : ClientSession σ)
    (d : ResourceData) (w : World σ) : Except Panic (GoError × ResourceData × World σ) :=
  match meta.CisAPI with
  | Except.error err => pure (some err, d, w)
  | Except.ok cisClient =>
    let ids := cx.convertTfToCisThreeVar d.Id
    let r := cisClient.GetRateLimit w.remote ids.cisID ids.zoneID ids.recordID
    let w : World σ :=
      { remote := r.2, calls := w.calls ++ [Call.GetRateLimit ids.cisID ids.zoneID ids.recordID] }
    match r.1.2 with
    | some e =>
      if notFound e then pure (none, d.SetId "", w)
      else pure (some ("Failed to read RateLimit: " ++ e), d, w)
    | none => do
      let rule ← deref r.1.1
      let d ← resourceIBMCISRateLimitRead.store cx ids rule d
      pure (none, d, w)

/-- The body of the `HasChange` branch of `resourceIBMCISRateLimitUpdate` (source lines
319-352): the record built so far and the error of an early return. -/
def resourceIBMCISRateLimitUpdate.fields (d : ResourceData) :
    Except Panic (RateLimitRecord × GoError) := do
  let threshold ← (d.Get cisRLThreshold).asInt
  let period ← (d.Get cisRLPeriod).asInt
  let updateRecord : RateLimitRecord := { Threshold := threshold, Period := period }
  let updateRecord ←
    if (d.GetOk cisRLDescription).2 then do
      let description ← (d.GetOk cisRLDescription).1.asString
      pure { updateRecord with Description := description }
    else pure updateRecord
  let updateRecord ←
    if (d.GetOk "disabled").2 then do
      let disabled ← (d.GetOk "disabled").1.asBool
      pure { updateRecord with Disabled := disabled }
    else pure updateRecord
  let action ← expandRateLimitAction d
  match action.2 with
  | some e => pure (updateRecord, some ("Error in getting action from expandRateLimitAction " ++ e))
  | none =>
  let updateRecord := { updateRecord with Action := action.1 }
  let mtch ← expandRateLimitMatch d
  match mtch.2 with
  | some e => pure (updateRecord, some ("Error in getting match from expandRateLimitMatch " ++ e))
  | none =>
  let updateRecord := { updateRecord with Match := mtch.1 }
  let correlate ← expandRateLimitCorrelate d
  match correlate.2 with
  | some e => pure (updateRecord, some ("Error in getting correlate from expandRateLimitCorrelate " ++ e))
  | none =>
  let updateRecord := { updateRecord with Correlate := some correlate.1 }
  let byPass ← expandRateLimitBypass d
  match byPass.2 with
  | some e => pure (updateRecord, some ("Error in getting bypass from expandRateLimitBypass " ++ e))
  | none =>
  pure ({ updateRecord with Bypass := byPass.1 }, none)

/-- The condition of source line 317: one of the eight tracked fields changed. -/
def resourceIBMCISRateLimitUpdate.hasChange (d : ResourceData) : Bool :=
  d.HasChange "disabled" || d.HasChange cisRLThreshold || d.HasChange cisRLPeriod ||
    d.HasChange cisRLDescription || d.HasChange "action" || d.HasChange "match" ||
    d.HasChange "correlate" || d.HasChange "bypass"

/-- Function `resourceIBMCISRateLimitUpdate` (source lines 307-360). -/
def resourceIBMCISRateLimitUpdate {σ : Type} (cx : Codec) (meta : ClientSession σ)
    (d : ResourceData) (w : World σ) : Except Panic (GoError × ResourceData × World σ) :=
  match meta.CisAPI with
  | Except.error err => pure (some err, d, w)
  | Except.ok cisClient => do
    let ids := cx.convertTfToCisThreeVar d.Id
    let updateRecord : RateLimitRecord := {}
    let built ←
      if resourceIBMCISRateLimitUpdate.hasChange d then resourceIBMCISRateLimitUpdate.fields d
      else pure (updateRecord, none)
    match built.2 with
    | some e => pure (some e, d, w)
    | none =>
      let r := cisClient.UpdateRateLimit w.remote ids.cisID ids.zoneID ids.recordID built.1
      let w : World σ :=
        { remote := r.2
          calls := w.calls ++ [Call.UpdateRateLimit ids.cisID ids.zoneID ids.recordID built.1] }
      match r.1.2 with
      | some e => pure (some ("Failed to update RateLimit: " ++ e), d, w)
      | none => resourceIBMCISRateLimitRead cx meta d w

/-- Function `resourceIBMCISRateLimitDelete` (source lines 362-376). -/
def resourceIBMCISRateLimitDelete {σ : Type} (cx : Codec) (meta : ClientSession σ)
    (d : ResourceData) (w : World σ) : GoError × ResourceData × World σ :=
  match meta.CisAPI with
  | Except.error err => (some err, d, w)
  | Except.ok cisClient =>
    let ids := cx.convertTfToCisThreeVar d.Id
    let r := cisClient.DeleteRateLimit w.remote ids.cisID ids.zoneID ids.recordID
    let w : World σ :=
      { remote := r.2, calls := w.calls ++ [Call.DeleteRateLimit ids.cisID ids.zoneID ids.recordID] }
    match r.1 with
    | some e =>
      if !notFound e then (some ("Failed to delete RateLimit: " ++ e), d, w)
      else (none, d, w)
    | none => (none, d, w)

/-- Function `resourceIBMCISRateLimitExists` (source lines 378-395). -/
def resourceIBMCISRateLimitExists {σ : Type} (cx : Codec) (meta : ClientSession σ)
    (d : ResourceData) (w : World σ) : (Bool × GoError) × ResourceData × World σ :=
  match meta.CisAPI with
  | Except.error err => ((false, some err), d, w)
  | Except.ok cisClient =>
    let ids := cx.convertTfToCisThreeVar d.Id
    let r := cisClient.GetRateLimit w.remote ids.cisID ids.zoneID ids.recordID
    let w : World σ :=
      { remote := r.2, calls := w.calls ++ [Call.GetRateLimit ids.cisID ids.zoneID ids.recordID] }
    match r.1.2 with
    | some e =>
      if notFound e then ((false, none), d, w)
      else ((false, some ("Failed to getting existing RateLimit: " ++ e)), d, w)
    | none => ((true, none), d, w)

/-! ## Concrete inputs and auxiliary shapes used by the statements below -/

/-- The action a successful expand returns for an action block. -/
def ActionBlock.expanded (b : ActionBlock) : RateLimitAction :=
  { Mode := b.mode, Timeout := b.timeout,
    Response := b.firstResponse.map fun r => { ContentType := r.1, Body := r.2 } }

/-- A state whose only content is one action block. -/
def configOf (b : ActionBlock) : ResourceData :=
  { id := "", values := [("action", Value.list [b.toValue])], changed := [] }

/-- A client over the one-point remote state that gives fixed answers. -/
def fixedClient (get update : Option RateLimitRecord × GoError) (delete : GoError) :
    RateLimitClient Unit :=
  { GetRateLimit := fun _ _ _ _ => (get, ())
    UpdateRateLimit := fun _ _ _ _ _ => (update, ())
    DeleteRateLimit := fun _ _ _ _ => (delete, ()) }

/-- The world before any call. -/
def emptyWorld : World Unit :=
  { remote := (), calls := [] }

/-- A state with a well-formed identifier and nothing else. -/
def storedRule : ResourceData :=
  { id := "rule1:zone1:cis1", values := [], changed := [] }

/-- A state whose identifier has no separator. -/
def malformedRule : ResourceData :=
  { id := "malformed", values := [], changed := [] }

/-- A state with a well-formed identifier, no pending change, and an action block that
`expandRateLimitAction` rejects. -/
def unchangedRule : ResourceData :=
  { id := "rule1:zone1:cis1"
    values := [("action", Value.list [ActionBlock.toValue ⟨"simulate", 0, none⟩])]
    changed := [] }

/-- A state with a pending change on `threshold` and a configuration every expand accepts. -/
def changedRule : ResourceData :=
  { id := "rule1:zone1:cis1"
    values := [("threshold", Value.int 10), ("period", Value.int 60),
      ("action", Value.list [ActionBlock.toValue ⟨"ban", 60, none⟩])]
    changed := ["threshold"] }

/-- A state with a pending change on `action` and an action block that
`expandRateLimitAction` rejects. -/
def rejectedChange : ResourceData :=
  { id := "rule1:zone1:cis1"
    values := [("threshold", Value.int 10), ("period", Value.int 60),
      ("action", Value.list [ActionBlock.toValue ⟨"simulate", 0, none⟩])]
    changed := ["action"] }

/-- The record Update builds from `changedRule`. -/
def changedRecord : RateLimitRecord :=
  { Threshold := 10, Period := 60, Action := { Mode := "ban", Timeout := 60 },
    Correlate := some { By := "" }, Bypass := none }

/-- A remote record that carries a correlate value. -/
def fullRecord : RateLimitRecord :=
  { ID := "rule1", Threshold := 10, Period := 60,
    Action := { Mode := "ban", Timeout := 60 }, Correlate := some { By := "nat" } }

/-- A remote record without a correlate value. -/
def noCorrelateRecord : RateLimitRecord :=
  { ID := "rule1", Threshold := 10, Period := 60, Action := { Mode := "ban", Timeout := 60 },
    Correlate := none }

/-- The value of `v1.RateLimitRecord{}`. -/
def zeroRecord : RateLimitRecord :=
  { ID := "", Disabled := false, Description := "", Threshold := 0, Period := 0,
    Action := { Mode := "", Timeout := 0, Response := none },
    Match := { Request := { Methods := [], Schemes := [], URL := "" },
               Response := { Statuses := [], OriginTraffic := none, Headers := [] } },
    Correlate := none, Bypass := none }

/-! ## Properties of the action mapping -/

theorem finish_toMap (b : ActionBlock) :
    expandRateLimitAction.finish b.toMap b.mode b.timeout =
      Except.ok ({ Mode := b.mode, Timeout := b.timeout,
                   Response := b.firstResponse.map fun r => { ContentType := r.1, Body := r.2 } },
                 none) := by
  obtain ⟨mode, timeout, response⟩ := b
  cases response with
  | none => rfl
  | some rs =>
    cases rs with
    | nil => rfl
    | cons r rest =>
      simp [expandRateLimitAction.finish, ActionBlock.toMap, ActionBlock.firstResponse,
        GoMap.lookup, GoMap.index, Value.ofMaps, Value.asList, Value.asMap, Value.asString,
        first, bind, Except.bind, pure, Except.pure]

theorem index_mode_toMap (b : ActionBlock) : GoMap.index b.toMap "mode" = Value.str b.mode := by
  simp [ActionBlock.toMap, GoMap.index, GoMap.lookup]

theorem index_timeout_toMap (b : ActionBlock) :
    GoMap.index b.toMap "timeout" = Value.int b.timeout := by
  simp [ActionBlock.toMap, GoMap.index, GoMap.lookup]

theorem expandRateLimitAction_eval (d : ResourceData) (b : ActionBlock)
    (h : d.Get "action" = Value.list [b.toValue]) :
    expandRateLimitAction d =
      if b.timeout = 0 then
        if b.mode = "simulate" ∨ b.mode = "ban" then
          Except.ok ({}, some "For the mode 'simulate' and 'ban' timeout must be set.. valid range for timeout is 10 - 86400. %!s(<nil>)")
        else Except.ok (b.expanded, none)
      else
        if b.mode = "challenge" ∨ b.mode = "js_challenge" then
          Except.ok ({}, some "Timeout field is only valid for 'simulate' and 'ban' modes. %!s(<nil>)")
        else Except.ok (b.expanded, none) := by
  unfold expandRateLimitAction
  rw [h]
  simp only [Value.asList, first, ActionBlock.toValue, Value.asMap, index_mode_toMap,
    index_timeout_toMap, Value.asString, Value.asInt, bind, Except.bind, pure, Except.pure,
    finish_toMap, ActionBlock.expanded]

/-- C1. For every action block, `expandRateLimitAction` returns (it does not panic), and it
returns an error exactly when timeout = 0 with mode simulate or ban, or timeout ≠ 0 with mode
challenge or js_challenge; without an error the returned action carries the given mode and
timeout. -/
theorem expandRateLimitAction_error_iff (d : ResourceData) (b : ActionBlock)
    (h : d.Get "action" = Value.list [b.toValue]) :
    ∃ action err, expandRateLimitAction d = Except.ok (action, err) ∧
      (err ≠ none ↔ (b.timeout = 0 ∧ (b.mode = "simulate" ∨ b.mode = "ban")) ∨
        (b.timeout ≠ 0 ∧ (b.mode = "challenge" ∨ b.mode = "js_challenge"))) ∧
      (err = none → action.Mode = b.mode ∧ action.Timeout = b.timeout) := by
  rw [expandRateLimitAction_eval d b h]
  by_cases ht : b.timeout = 0
  · by_cases hm : b.mode = "simulate" ∨ b.mode = "ban"
    · exact ⟨_, _, by rw [if_pos ht, if_pos hm], by simp [ht, hm], by simp⟩
    · exact ⟨_, _, by rw [if_pos ht, if_neg hm], by simp [ht, hm],
        by simp [ActionBlock.expanded]⟩
  · by_cases hm : b.mode = "challenge" ∨ b.mode = "js_challenge"
    · exact ⟨_, _, by rw [if_neg ht, if_pos hm], by simp [ht, hm], by simp⟩
    · exact ⟨_, _, by rw [if_neg ht, if_neg hm], by simp [ht, hm],
        by simp [ActionBlock.expanded]⟩

/-- Witness of C1 at the three inputs the specification names: (simulate, 0) and
(challenge, 30) return an error, (ban, 60) returns an action with mode ban and timeout 60. -/
theorem expandRateLimitAction_error_iff_witness :
    (∃ a e, expandRateLimitAction (configOf ⟨"simulate", 0, none⟩) = Except.ok (a, some e)) ∧
    (∃ a e, expandRateLimitAction (configOf ⟨"challenge", 30, none⟩) = Except.ok (a, some e)) ∧
    (∃ a, expandRateLimitAction (configOf ⟨"ban", 60, none⟩) = Except.ok (a, none) ∧
      a.Mode = "ban" ∧ a.Timeout = 60) := by
  refine ⟨?_, ?_, ?_⟩
  · obtain ⟨a, err, h, i, _⟩ :=
      expandRateLimitAction_error_iff (configOf ⟨"simulate", 0, none⟩) ⟨"simulate", 0, none⟩ rfl
    obtain ⟨e, he⟩ := Option.ne_none_iff_exists'.mp (i.mpr (Or.inl ⟨rfl, Or.inl rfl⟩))
    exact ⟨a, e, by rw [h, he]⟩
  · obtain ⟨a, err, h, i, _⟩ :=
      expandRateLimitAction_error_iff (configOf ⟨"challenge", 30, none⟩) ⟨"challenge", 30, none⟩ rfl
    obtain ⟨e, he⟩ := Option.ne_none_iff_exists'.mp (i.mpr (Or.inr ⟨by decide, Or.inl rfl⟩))
    exact ⟨a, e, by rw [h, he]⟩
  · obtain ⟨a, err, h, i, m⟩ :=
      expandRateLimitAction_error_iff (configOf ⟨"ban", 60, none⟩) ⟨"ban", 60, none⟩ rfl
    have he : err = none := by
      by_contra hne
      rcases i.mp hne with ⟨h0, _⟩ | ⟨_, hm | hm⟩
      · exact absurd h0 (by decide)
      · exact absurd hm (by decide)
      · exact absurd hm (by decide)
    exact ⟨a, by rw [h, he], m he⟩

/-- Counterexample to C2: mode ban with timeout -5, which is not above zero, is accepted. -/
theorem expandRateLimitAction_negative_timeout_accepted :
    (-5 : Int) ≤ 0 ∧
    expandRateLimitAction (configOf ⟨"ban", -5, none⟩) =
      Except.ok ({ Mode := "ban", Timeout := -5 }, none) :=
  ⟨by decide, rfl⟩

/-- C2, amended. For every action block whose mode is simulate or ban, `expandRateLimitAction`
returns, and it returns without error exactly when timeout ≠ 0: timeout 0 is rejected with a
validation error, every other timeout, negative values included, is accepted unchanged. -/
theorem expandRateLimitAction_simulate_ban (d : ResourceData) (b : ActionBlock)
    (h : d.Get "action" = Value.list [b.toValue])
    (hm : b.mode = "simulate" ∨ b.mode = "ban") :
    (b.timeout = 0 → ∃ a e, expandRateLimitAction d = Except.ok (a, some e)) ∧
    (b.timeout ≠ 0 → ∃ a, expandRateLimitAction d = Except.ok (a, none) ∧
      a.Timeout = b.timeout) := by
  rw [expandRateLimitAction_eval d b h]
  have hc : ¬ (b.mode = "challenge" ∨ b.mode = "js_challenge") := by
    rcases hm with hm | hm <;> rw [hm] <;> decide
  constructor
  · intro ht
    exact ⟨_, _, by rw [if_pos ht, if_pos hm]⟩
  · intro ht
    exact ⟨_, by rw [if_neg ht, if_neg hc], rfl⟩

/-- Witness of C2 (amended) at (ban, -5). -/
theorem expandRateLimitAction_simulate_ban_witness :
    ((-5 : Int) = 0 →
      ∃ a e, expandRateLimitAction (configOf ⟨"ban", -5, none⟩) = Except.ok (a, some e)) ∧
    ((-5 : Int) ≠ 0 →
      ∃ a, expandRateLimitAction (configOf ⟨"ban", -5, none⟩) = Except.ok (a, none) ∧
        a.Timeout = -5) :=
  expandRateLimitAction_simulate_ban (configOf ⟨"ban", -5, none⟩) ⟨"ban", -5, none⟩ rfl
    (Or.inr rfl)

/-- C3. Expand then flatten gives the action block back: whenever `expandRateLimitAction`
returns an action without error, `flattenRateLimitAction` of it is a one-element list whose
map holds the configured mode and timeout (so timeout 0 when the mode is challenge), and holds
a `response` entry, with the content_type and body of the configured block, exactly when the
configuration had a non-empty response list. -/
theorem flatten_expand_action (d : ResourceData) (b : ActionBlock) (a : RateLimitAction)
    (h : d.Get "action" = Value.list [b.toValue])
    (hs : expandRateLimitAction d = Except.ok (a, none)) :
    ∃ m, flattenRateLimitAction a = [m] ∧
      GoMap.lookup m "mode" = some (Value.str b.mode) ∧
      GoMap.lookup m "timeout" = some (Value.int b.timeout) ∧
      (b.mode = "challenge" → GoMap.lookup m "timeout" = some (Value.int 0)) ∧
      (b.response = none ∨ b.response = some [] → GoMap.lookup m "response" = none) ∧
      (∀ r rest, b.response = some (r :: rest) →
        GoMap.lookup m "response" =
          some (Value.list [Value.map [("content_type", Value.str r.1), ("body", Value.str r.2)]])) := by
  rw [expandRateLimitAction_eval d b h] at hs
  have ha : a = b.expanded ∧ (b.mode = "challenge" → b.timeout = 0) := by
    by_cases ht : b.timeout = 0
    · by_cases hm : b.mode = "simulate" ∨ b.mode = "ban"
      · rw [if_pos ht, if_pos hm] at hs; simp at hs
      · rw [if_pos ht, if_neg hm] at hs
        simp at hs
        exact ⟨hs.symm, fun _ => ht⟩
    · by_cases hm : b.mode = "challenge" ∨ b.mode = "js_challenge"
      · rw [if_neg ht, if_pos hm] at hs; simp at hs
      · rw [if_neg ht, if_neg hm] at hs
        simp at hs
        exact ⟨hs.symm, fun hc => absurd (Or.inl hc) hm⟩
  obtain ⟨rfl, hch⟩ := ha
  obtain ⟨mode, timeout, response⟩ := b
  rcases response with _ | _ | ⟨r, rest⟩
  · refine ⟨_, rfl, ?_, ?_, ?_, ?_, ?_⟩ <;>
      simp_all [ActionBlock.expanded, ActionBlock.firstResponse, GoMap.lookup]
  · refine ⟨_, rfl, ?_, ?_, ?_, ?_, ?_⟩ <;>
      simp_all [ActionBlock.expanded, ActionBlock.firstResponse, GoMap.lookup]
  · refine ⟨_, rfl, ?_, ?_, ?_, ?_, ?_⟩ <;>
      simp_all [ActionBlock.expanded, ActionBlock.firstResponse, GoMap.lookup, GoMap.set,
        Value.ofMaps]

/-- Witness of C3 at (ban, 60) with one response block. -/
theorem flatten_expand_action_witness :
    ∃ m, flattenRateLimitAction
        { Mode := "ban", Timeout := 60,
          Response := some { ContentType := "text/plain", Body := "slow down" } } = [m] ∧
      GoMap.lookup m "mode" = some (Value.str "ban") ∧
      GoMap.lookup m "timeout" = some (Value.int 60) ∧
      ("ban" = "challenge" → GoMap.lookup m "timeout" = some (Value.int 0)) ∧
      (some [(("text/plain", "slow down") : String × String)] = none ∨
        some [(("text/plain", "slow down") : String × String)] = some [] →
          GoMap.lookup m "response" = none) ∧
      (∀ r rest, some [(("text/plain", "slow down") : String × String)] = some (r :: rest) →
        GoMap.lookup m "response" =
          some (Value.list [Value.map [("content_type", Value.str r.1), ("body", Value.str r.2)]])) :=
  flatten_expand_action (configOf ⟨"ban", 60, some [("text/plain", "slow down")]⟩)
    ⟨"ban", 60, some [("text/plain", "slow down")]⟩ _ rfl rfl

/-! ## Properties of the match-response and bypass mappings -/

theorem foldl_snoc {α : Type} (xs acc : List α) :
    xs.foldl (fun ys x => ys ++ [x]) acc = acc ++ xs := by
  induction xs generalizing acc with
  | nil => simp
  | cons x rest ih => simp [ih]

theorem foldl_snoc_map {α β : Type} (f : α → β) (xs : List α) (acc : List β) :
    xs.foldl (fun ys x => ys ++ [f x]) acc = acc ++ xs.map f := by
  induction xs generalizing acc with
  | nil => simp
  | cons x rest ih => simp [ih]

/-- C4. `flattenRateLimitMatchResponse` returns the empty list exactly when origin_traffic is
nil and the status and header lists are empty; otherwise it returns one map whose
`origin_traffic`, `status` and `headers` entries are present exactly for the populated fields,
with their values, and which has no other key. A response with only origin_traffic = false
gives the one-element list holding the map with the single entry origin_traffic: false. -/
theorem flattenRateLimitMatchResponse_collapse (r : MatchResponse) :
    (flattenRateLimitMatchResponse r = [] ↔
      r.OriginTraffic = none ∧ r.Statuses = [] ∧ r.Headers = []) ∧
    (¬ (r.OriginTraffic = none ∧ r.Statuses = [] ∧ r.Headers = []) →
      ∃ m, flattenRateLimitMatchResponse r = [Value.map m] ∧
        GoMap.lookup m "origin_traffic" = r.OriginTraffic.map Value.bool ∧
        GoMap.lookup m "status" =
          (if r.Statuses = [] then none else some (Value.list (r.Statuses.map Value.int))) ∧
        GoMap.lookup m "headers" =
          (if r.Headers = [] then none else some (Value.list (r.Headers.map fun h =>
            Value.map [("name", Value.str h.Name), ("op", Value.str h.Op),
              ("value", Value.str h.Value)]))) ∧
        ∀ k, k ≠ "origin_traffic" → k ≠ "status" → k ≠ "headers" → GoMap.lookup m k = none) ∧
    flattenRateLimitMatchResponse { OriginTraffic := some false } =
      [Value.map [("origin_traffic", Value.bool false)]] := by
  obtain ⟨statuses, origin, headers⟩ := r
  refine ⟨?_, ?_, rfl⟩
  · rcases origin with _ | o <;> rcases statuses with _ | ⟨s, ss⟩ <;>
      rcases headers with _ | ⟨h, hs⟩ <;>
      simp [flattenRateLimitMatchResponse, flattenRateLimitMatchResponse.origin,
        flattenRateLimitMatchResponse.status, flattenRateLimitMatchResponse.headers]
  · intro hne
    rcases origin with _ | o <;> rcases statuses with _ | ⟨s, ss⟩ <;>
      rcases headers with _ | ⟨h, hs⟩ <;>
      simp [flattenRateLimitMatchResponse, flattenRateLimitMatchResponse.origin,
        flattenRateLimitMatchResponse.status, flattenRateLimitMatchResponse.headers,
        GoMap.set, GoMap.lookup, foldl_snoc, foldl_snoc_map, Value.ofMaps] at hne ⊢
    all_goals
      intro k h1 h2 h3
      simp [Ne.symm h1, Ne.symm h2, Ne.symm h3]

theorem lookup_set_same (m : GoMap) (k : String) (v : Value) :
    GoMap.lookup (GoMap.set m k v) k = some v := by
  induction m with
  | nil => simp [GoMap.set, GoMap.lookup]
  | cons kv rest ih =>
    obtain ⟨k', v'⟩ := kv
    by_cases hk : k' = k
    · simp [GoMap.set, GoMap.lookup, hk]
    · simpa [GoMap.set, GoMap.lookup, hk] using ih

theorem get_set_same (d : ResourceData) (k : String) (v : Value) : (d.Set k v).Get k = v := by
  simp [ResourceData.Set, ResourceData.Get, lookup_set_same]

theorem flattenRateLimitByPass_eq (byPass : Slice RateLimitByPass) :
    flattenRateLimitByPass byPass =
      byPass.toList.map fun b => [("name", Value.str b.Name), ("value", Value.str b.Value)] := by
  cases h : byPass.toList with
  | nil => simp [flattenRateLimitByPass, h]
  | cons b rest => simp [flattenRateLimitByPass, h, foldl_snoc_map]

theorem expandRateLimitBypass_loop_flat (byPass acc : List RateLimitByPass) :
    expandRateLimitBypass.loop
        (byPass.map fun b => Value.map [("name", Value.str b.Name), ("value", Value.str b.Value)])
        acc = Except.ok (acc ++ byPass) := by
  induction byPass generalizing acc with
  | nil => simp [expandRateLimitBypass.loop, pure, Except.pure]
  | cons b rest ih =>
    simp [expandRateLimitBypass.loop, Value.asMapOk, GoMap.index, GoMap.lookup, Value.asString,
      bind, Except.bind, pure, Except.pure, ih]

theorem expandRateLimitBypass_of_empty (d : ResourceData) (byPass : Slice RateLimitByPass)
    (h : byPass.toList = []) :
    expandRateLimitBypass (d.Set "bypass" (Value.ofMaps (flattenRateLimitByPass byPass))) =
      Except.ok (none, none) := by
  rw [flattenRateLimitByPass_eq, h]
  simp [expandRateLimitBypass, ResourceData.GetOk, get_set_same, Value.ofMaps, Value.isZero,
    pure, Except.pure]

/-- Counterexample to C5: the round trip of the empty bypass list returns the nil slice, the
absent value, which is not the empty list; a state that holds no bypass at all expands to
the same nil slice. -/
theorem expand_flatten_bypass_empty_is_nil :
    expandRateLimitBypass
        (storedRule.Set "bypass" (Value.ofMaps (flattenRateLimitByPass (some [])))) =
      Except.ok (none, none) ∧
    (none : Slice RateLimitByPass) ≠ some [] ∧
    expandRateLimitBypass storedRule = Except.ok (none, none) :=
  ⟨rfl, by decide, rfl⟩

/-- C5, amended. For every state and every non-empty list of bypass entries,
`expandRateLimitBypass` on the state in which `bypass` holds the output of
`flattenRateLimitByPass` returns that list, entry for entry and in order, without error. For
the empty list, and for the nil slice, it returns the nil slice without error. -/
theorem expand_flatten_bypass (d : ResourceData) (byPass : List RateLimitByPass) :
    (byPass ≠ [] →
      expandRateLimitBypass
          (d.Set "bypass" (Value.ofMaps (flattenRateLimitByPass (some byPass)))) =
        Except.ok (some byPass, none)) ∧
    expandRateLimitBypass (d.Set "bypass" (Value.ofMaps (flattenRateLimitByPass (some [])))) =
      Except.ok (none, none) ∧
    expandRateLimitBypass (d.Set "bypass" (Value.ofMaps (flattenRateLimitByPass none))) =
      Except.ok (none, none) := by
  refine ⟨?_, expandRateLimitBypass_of_empty d (some []) rfl,
    expandRateLimitBypass_of_empty d none rfl⟩
  intro hne
  rw [flattenRateLimitByPass_eq]
  cases byPass with
  | nil => exact absurd rfl hne
  | cons b rest =>
    have h := expandRateLimitBypass_loop_flat (b :: rest) []
    simp only [List.map_cons, List.nil_append] at h
    simp [expandRateLimitBypass, ResourceData.GetOk, get_set_same, Value.ofMaps, Value.isZero,
      Value.asList, bind, Except.bind, pure, Except.pure, Function.comp_def, Slice.toList, h]

/-! ## Properties of the lifecycle operations -/

/-- C6. When the `GetRateLimit` call of `resourceIBMCISRateLimitRead` returns an error: if the
error carries the 404 signal, Read returns no error and a state whose identifier is empty (its
other fields as before); otherwise Read returns an error and the state unchanged. -/
theorem read_on_fetch_error {σ : Type} (cx : Codec) (c : RateLimitClient σ) (d : ResourceData)
    (w : World σ) (ids : ThreeVar) (e : String)
    (hids : cx.convertTfToCisThreeVar d.Id = ids)
    (herr : (c.GetRateLimit w.remote ids.cisID ids.zoneID ids.recordID).1.2 = some e) :
    (notFound e = true →
      ∃ d', resourceIBMCISRateLimitRead cx (ClientSession.mk (Except.ok c)) d w =
          Except.ok (none, d',
            { remote := (c.GetRateLimit w.remote ids.cisID ids.zoneID ids.recordID).2
              calls := w.calls ++ [Call.GetRateLimit ids.cisID ids.zoneID ids.recordID] }) ∧
        d'.id = "" ∧ d'.values = d.values ∧ d'.changed = d.changed) ∧
    (notFound e = false →
      resourceIBMCISRateLimitRead cx (ClientSession.mk (Except.ok c)) d w =
        Except.ok (some ("Failed to read RateLimit: " ++ e), d,
          { remote := (c.GetRateLimit w.remote ids.cisID ids.zoneID ids.recordID).2
            calls := w.calls ++ [Call.GetRateLimit ids.cisID ids.zoneID ids.recordID] })) := by
  constructor
  · intro hnf
    refine ⟨d.SetId "", ?_, rfl, rfl, rfl⟩
    simp [resourceIBMCISRateLimitRead, hids, herr, hnf, pure, Except.pure]
  · intro hnf
    simp [resourceIBMCISRateLimitRead, hids, herr, hnf, pure, Except.pure]

/-- Witness of C6: a 404 answer clears the identifier without error, a 500 answer is
returned as an error with the state untouched. -/
theorem read_on_fetch_error_witness :
    (∃ d', resourceIBMCISRateLimitRead (specCodec ':')
          (ClientSession.mk (Except.ok
            (fixedClient (none, some "Request failed with status code: 404") (none, none) none)))
          storedRule emptyWorld =
          Except.ok (none, d',
            { remote := (), calls := [] ++ [Call.GetRateLimit "cis1" "zone1" "rule1"] }) ∧
        d'.id = "" ∧ d'.values = storedRule.values ∧ d'.changed = storedRule.changed) ∧
    resourceIBMCISRateLimitRead (specCodec ':')
        (ClientSession.mk (Except.ok
          (fixedClient (none, some "Request failed with status code: 500") (none, none) none)))
        storedRule emptyWorld =
      Except.ok (some ("Failed to read RateLimit: " ++ "Request failed with status code: 500"),
        storedRule, { remote := (), calls := [] ++ [Call.GetRateLimit "cis1" "zone1" "rule1"] }) :=
  ⟨(read_on_fetch_error (specCodec ':')
      (fixedClient (none, some "Request failed with status code: 404") (none, none) none)
      storedRule emptyWorld ⟨"rule1", "zone1", "cis1", none⟩
      "Request failed with status code: 404" (by decide) rfl).1 (by decide),
   (read_on_fetch_error (specCodec ':')
      (fixedClient (none, some "Request failed with status code: 500") (none, none) none)
      storedRule emptyWorld ⟨"rule1", "zone1", "cis1", none⟩
      "Request failed with status code: 500" (by decide) rfl).2 (by decide)⟩

/-- C7. Delete and Exists never surface a 404. `resourceIBMCISRateLimitDelete` returns no
error when `DeleteRateLimit` returns none or an error carrying the 404 signal, and an error
otherwise; `resourceIBMCISRateLimitExists` returns (false, no error) on the 404 signal,
(false, error) on any other error, and (true, no error) when `GetRateLimit` returns no
error. -/
theorem delete_exists_not_found {σ : Type} (cx : Codec) (c : RateLimitClient σ)
    (d : ResourceData) (w : World σ) (ids : ThreeVar)
    (hids : cx.convertTfToCisThreeVar d.Id = ids) :
    ((c.DeleteRateLimit w.remote ids.cisID ids.zoneID ids.recordID).1 = none →
      (resourceIBMCISRateLimitDelete cx (ClientSession.mk (Except.ok c)) d w).1 = none) ∧
    (∀ e, (c.DeleteRateLimit w.remote ids.cisID ids.zoneID ids.recordID).1 = some e →
      notFound e = true →
      (resourceIBMCISRateLimitDelete cx (ClientSession.mk (Except.ok c)) d w).1 = none) ∧
    (∀ e, (c.DeleteRateLimit w.remote ids.cisID ids.zoneID ids.recordID).1 = some e →
      notFound e = false →
      (resourceIBMCISRateLimitDelete cx (ClientSession.mk (Except.ok c)) d w).1 =
        some ("Failed to delete RateLimit: " ++ e)) ∧
    (∀ e, (c.GetRateLimit w.remote ids.cisID ids.zoneID ids.recordID).1.2 = some e →
      notFound e = true →
      (resourceIBMCISRateLimitExists cx (ClientSession.mk (Except.ok c)) d w).1 =
        (false, none)) ∧
    (∀ e, (c.GetRateLimit w.remote ids.cisID ids.zoneID ids.recordID).1.2 = some e →
      notFound e = false →
      (resourceIBMCISRateLimitExists cx (ClientSession.mk (Except.ok c)) d w).1 =
        (false, some ("Failed to getting existing RateLimit: " ++ e))) ∧
    ((c.GetRateLimit w.remote ids.cisID ids.zoneID ids.recordID).1.2 = none →
      (resourceIBMCISRateLimitExists cx (ClientSession.mk (Except.ok c)) d w).1 =
        (true, none)) := by
  refine ⟨?_, ?_, ?_, ?_, ?_, ?_⟩
  · intro h
    simp [resourceIBMCISRateLimitDelete, hids, h]
  · intro e h hnf
    simp [resourceIBMCISRateLimitDelete, hids, h, hnf]
  · intro e h hnf
    simp [resourceIBMCISRateLimitDelete, hids, h, hnf]
  · intro e h hnf
    simp [resourceIBMCISRateLimitExists, hids, h, hnf]
  · intro e h hnf
    simp [resourceIBMCISRateLimitExists, hids, h, hnf]
  · intro h
    simp [resourceIBMCISRateLimitExists, hids, h]

/-- Witness of C7: on a 404 answer Delete returns no error and Exists returns
(false, no error). -/
theorem delete_exists_not_found_witness :
    (resourceIBMCISRateLimitDelete (specCodec ':')
      (ClientSession.mk (Except.ok
        (fixedClient (none, some "Request failed with status code: 404") (none, none)
          (some "Request failed with status code: 404"))))
      storedRule emptyWorld).1 = none ∧
    (resourceIBMCISRateLimitExists (specCodec ':')
      (ClientSession.mk (Except.ok
        (fixedClient (none, some "Request failed with status code: 404") (none, none)
          (some "Request failed with status code: 404"))))
      storedRule emptyWorld).1 = (false, none) :=
  ⟨(delete_exists_not_found (specCodec ':')
      (fixedClient (none, some "Request failed with status code: 404") (none, none)
        (some "Request failed with status code: 404"))
      storedRule emptyWorld ⟨"rule1", "zone1", "cis1", none⟩ (by decide)).2.1
      "Request failed with status code: 404" rfl (by decide),
   (delete_exists_not_found (specCodec ':')
      (fixedClient (none, some "Request failed with status code: 404") (none, none)
        (some "Request failed with status code: 404"))
      storedRule emptyWorld ⟨"rule1", "zone1", "cis1", none⟩ (by decide)).2.2.2.1
      "Request failed with status code: 404" rfl (by decide)⟩

theorem read_calls {σ : Type} (cx : Codec) (meta : ClientSession σ) (c : RateLimitClient σ)
    (d : ResourceData) (w : World σ) (res : GoError × ResourceData × World σ)
    (hc : meta.CisAPI = Except.ok c)
    (h : resourceIBMCISRateLimitRead cx meta d w = Except.ok res) :
    res.2.2.calls = w.calls ++
      [Call.GetRateLimit (cx.convertTfToCisThreeVar d.Id).cisID
        (cx.convertTfToCisThreeVar d.Id).zoneID (cx.convertTfToCisThreeVar d.Id).recordID] := by
  unfold resourceIBMCISRateLimitRead at h
  rw [hc] at h
  simp only at h
  split at h
  · split at h <;> (simp [pure, Except.pure] at h; rw [← h])
  · cases h1 : deref (c.GetRateLimit w.remote (cx.convertTfToCisThreeVar d.Id).cisID
        (cx.convertTfToCisThreeVar d.Id).zoneID (cx.convertTfToCisThreeVar d.Id).recordID).1.1 with
    | error p => simp [h1, bind, Except.bind] at h
    | ok rule =>
      cases h2 : resourceIBMCISRateLimitRead.store cx (cx.convertTfToCisThreeVar d.Id) rule d with
      | error p => simp [h1, h2, bind, Except.bind] at h
      | ok d' =>
        simp [h1, h2, bind, Except.bind, pure, Except.pure] at h
        rw [← h]

theorem hasChange_false (d : ResourceData)
    (hno : ∀ k ∈ ["disabled", "threshold", "period", "description", "action", "match",
      "correlate", "bypass"], d.HasChange k = false) :
    resourceIBMCISRateLimitUpdate.hasChange d = false := by
  simp [resourceIBMCISRateLimitUpdate.hasChange, cisRLThreshold, cisRLPeriod, cisRLDescription,
    hno]

theorem hasChange_true (d : ResourceData)
    (hsome : ∃ k ∈ ["disabled", "threshold", "period", "description", "action", "match",
      "correlate", "bypass"], d.HasChange k = true) :
    resourceIBMCISRateLimitUpdate.hasChange d = true := by
  obtain ⟨k, hk, hc⟩ := hsome
  simp only [List.mem_cons, List.mem_singleton, List.not_mem_nil, or_false] at hk
  rcases hk with rfl | rfl | rfl | rfl | rfl | rfl | rfl | rfl <;>
    simp [resourceIBMCISRateLimitUpdate.hasChange, cisRLThreshold, cisRLPeriod,
      cisRLDescription, hc]

theorem asInt_eq_ok (v : Value) (n : Int) : v.asInt = Except.ok n ↔ v = Value.int n := by
  cases v <;> simp [Value.asInt, pure, Except.pure, throw, throwThe, MonadExceptOf.throw]

theorem fields_sent (d : ResourceData) (rec : RateLimitRecord)
    (h : resourceIBMCISRateLimitUpdate.fields d = Except.ok (rec, none)) :
    ∃ a m c b, expandRateLimitAction d = Except.ok (a, none) ∧
      expandRateLimitMatch d = Except.ok (m, none) ∧
      expandRateLimitCorrelate d = Except.ok (c, none) ∧
      expandRateLimitBypass d = Except.ok (b, none) ∧
      rec.Action = a ∧ rec.Match = m ∧ rec.Correlate = some c ∧ rec.Bypass = b ∧
      d.Get "threshold" = Value.int rec.Threshold ∧ d.Get "period" = Value.int rec.Period := by
  unfold resourceIBMCISRateLimitUpdate.fields at h
  simp only [bind, Except.bind] at h
  repeat' split at h
  all_goals try (simp [pure, Except.pure] at h)
  all_goals
    simp only [pure, Except.pure, Except.ok.injEq] at *
    subst_vars
    simp_all [Prod.ext_iff, asInt_eq_ok, cisRLThreshold, cisRLPeriod]

theorem update_changed {σ : Type} (cx : Codec) (c : RateLimitClient σ) (d : ResourceData)
    (w : World σ) (hch : resourceIBMCISRateLimitUpdate.hasChange d = true) :
    resourceIBMCISRateLimitUpdate cx (ClientSession.mk (Except.ok c)) d w =
      match resourceIBMCISRateLimitUpdate.fields d with
      | Except.error p => Except.error p
      | Except.ok (_, some e) => Except.ok (some e, d, w)
      | Except.ok (rec, none) =>
        match (c.UpdateRateLimit w.remote (cx.convertTfToCisThreeVar d.Id).cisID
            (cx.convertTfToCisThreeVar d.Id).zoneID (cx.convertTfToCisThreeVar d.Id).recordID
            rec).1.2 with
        | some e => Except.ok (some ("Failed to update RateLimit: " ++ e), d,
            { remote := (c.UpdateRateLimit w.remote (cx.convertTfToCisThreeVar d.Id).cisID
                (cx.convertTfToCisThreeVar d.Id).zoneID
                (cx.convertTfToCisThreeVar d.Id).recordID rec).2
              calls := w.calls ++
                [Call.UpdateRateLimit (cx.convertTfToCisThreeVar d.Id).cisID
                  (cx.convertTfToCisThreeVar d.Id).zoneID
                  (cx.convertTfToCisThreeVar d.Id).recordID rec] })
        | none => resourceIBMCISRateLimitRead cx (ClientSession.mk (Except.ok c)) d
            { remote := (c.UpdateRateLimit w.remote (cx.convertTfToCisThreeVar d.Id).cisID
                (cx.convertTfToCisThreeVar d.Id).zoneID
                (cx.convertTfToCisThreeVar d.Id).recordID rec).2
              calls := w.calls ++
                [Call.UpdateRateLimit (cx.convertTfToCisThreeVar d.Id).cisID
                  (cx.convertTfToCisThreeVar d.Id).zoneID
                  (cx.convertTfToCisThreeVar d.Id).recordID rec] } := by
  unfold resourceIBMCISRateLimitUpdate
  simp only [hch, if_true, bind, Except.bind]
  cases hf : resourceIBMCISRateLimitUpdate.fields d with
  | error p => rfl
  | ok built =>
    obtain ⟨rec, err⟩ := built
    cases err with
    | some e => rfl
    | none =>
      simp only []
      split <;> simp_all [pure, Except.pure]

/-- Counterexample to C9: with a pending change on `action` and an action block that expand
rejects, Update returns the validation error and issues no remote call at all; and with no
pending change and a remote that answers the update with an error, Update returns the wrapped
error after the one `UpdateRateLimit` call, without the `GetRateLimit` of Read. -/
theorem update_rejected_before_call :
    resourceIBMCISRateLimitUpdate (specCodec ':')
        (ClientSession.mk (Except.ok (fixedClient (some fullRecord, none) (none, none) none)))
        rejectedChange emptyWorld =
      Except.ok (some ("Error in getting action from expandRateLimitAction " ++
          "For the mode 'simulate' and 'ban' timeout must be set.. valid range for timeout is 10 - 86400. %!s(<nil>)"),
        rejectedChange, { remote := (), calls := [] }) ∧
    resourceIBMCISRateLimitUpdate (specCodec ':')
        (ClientSession.mk (Except.ok
          (fixedClient (some fullRecord, none)
            (none, some "Request failed with status code: 500") none)))
        unchangedRule emptyWorld =
      Except.ok (some ("Failed to update RateLimit: " ++ "Request failed with status code: 500"),
        unchangedRule,
        { remote := (), calls := [Call.UpdateRateLimit "cis1" "zone1" "rule1" zeroRecord] }) :=
  ⟨rfl, rfl⟩

/-- C9, amended. `resourceIBMCISRateLimitUpdate` re-validates and re-sends fields only when one
of the eight tracked fields changed. When none changed it reads nothing from the
configuration and calls `UpdateRateLimit` once with the decoded ids and the zero-valued
record. When one changed it builds the record through the expand functions: a panic or an
expand error ends Update before any remote call, and otherwise it calls `UpdateRateLimit` once
with the decoded ids and the built record, which carries the expanded action, match,
correlate and bypass. In both cases an error answer to that call is returned wrapped, with
the state unchanged and without Read, and a nil answer is followed by
`resourceIBMCISRateLimitRead` on the world after the call. -/
theorem update_by_change {σ : Type} (cx : Codec) (c : RateLimitClient σ)
    (d : ResourceData) (w : World σ) (ids : ThreeVar)
    (hids : cx.convertTfToCisThreeVar d.Id = ids) :
    ((∀ k ∈ ["disabled", "threshold", "period", "description", "action", "match",
        "correlate", "bypass"], d.HasChange k = false) →
      (∀ e, (c.UpdateRateLimit w.remote ids.cisID ids.zoneID ids.recordID zeroRecord).1.2 =
          some e →
        resourceIBMCISRateLimitUpdate cx (ClientSession.mk (Except.ok c)) d w =
          Except.ok (some ("Failed to update RateLimit: " ++ e), d,
            { remote :=
                (c.UpdateRateLimit w.remote ids.cisID ids.zoneID ids.recordID zeroRecord).2
              calls := w.calls ++
                [Call.UpdateRateLimit ids.cisID ids.zoneID ids.recordID zeroRecord] })) ∧
      ((c.UpdateRateLimit w.remote ids.cisID ids.zoneID ids.recordID zeroRecord).1.2 = none →
        resourceIBMCISRateLimitUpdate cx (ClientSession.mk (Except.ok c)) d w =
          resourceIBMCISRateLimitRead cx (ClientSession.mk (Except.ok c)) d
            { remote :=
                (c.UpdateRateLimit w.remote ids.cisID ids.zoneID ids.recordID zeroRecord).2
              calls := w.calls ++
                [Call.UpdateRateLimit ids.cisID ids.zoneID ids.recordID zeroRecord] }) ∧
      (∀ res, resourceIBMCISRateLimitUpdate cx (ClientSession.mk (Except.ok c)) d w =
          Except.ok res →
        res.2.2.calls = w.calls ++
            [Call.UpdateRateLimit ids.cisID ids.zoneID ids.recordID zeroRecord] ∨
        res.2.2.calls = w.calls ++
            [Call.UpdateRateLimit ids.cisID ids.zoneID ids.recordID zeroRecord,
             Call.GetRateLimit ids.cisID ids.zoneID ids.recordID])) ∧
    ((∃ k ∈ ["disabled", "threshold", "period", "description", "action", "match",
        "correlate", "bypass"], d.HasChange k = true) →
      (∀ p, resourceIBMCISRateLimitUpdate.fields d = Except.error p →
        resourceIBMCISRateLimitUpdate cx (ClientSession.mk (Except.ok c)) d w =
          Except.error p) ∧
      (∀ rec e, resourceIBMCISRateLimitUpdate.fields d = Except.ok (rec, some e) →
        resourceIBMCISRateLimitUpdate cx (ClientSession.mk (Except.ok c)) d w =
          Except.ok (some e, d, w)) ∧
      (∀ a e, expandRateLimitAction d = Except.ok (a, some e) →
        ∀ res, resourceIBMCISRateLimitUpdate cx (ClientSession.mk (Except.ok c)) d w =
            Except.ok res →
          res.1.isSome = true ∧ res.2.1 = d ∧ res.2.2 = w) ∧
      (∀ rec, resourceIBMCISRateLimitUpdate.fields d = Except.ok (rec, none) →
        (∃ a m cor b, expandRateLimitAction d = Except.ok (a, none) ∧
          expandRateLimitMatch d = Except.ok (m, none) ∧
          expandRateLimitCorrelate d = Except.ok (cor, none) ∧
          expandRateLimitBypass d = Except.ok (b, none) ∧
          rec.Action = a ∧ rec.Match = m ∧ rec.Correlate = some cor ∧ rec.Bypass = b) ∧
        (∀ e, (c.UpdateRateLimit w.remote ids.cisID ids.zoneID ids.recordID rec).1.2 = some e →
          resourceIBMCISRateLimitUpdate cx (ClientSession.mk (Except.ok c)) d w =
            Except.ok (some ("Failed to update RateLimit: " ++ e), d,
              { remote := (c.UpdateRateLimit w.remote ids.cisID ids.zoneID ids.recordID rec).2
                calls := w.calls ++
                  [Call.UpdateRateLimit ids.cisID ids.zoneID ids.recordID rec] })) ∧
        ((c.UpdateRateLimit w.remote ids.cisID ids.zoneID ids.recordID rec).1.2 = none →
          resourceIBMCISRateLimitUpdate cx (ClientSession.mk (Except.ok c)) d w =
            resourceIBMCISRateLimitRead cx (ClientSession.mk (Except.ok c)) d
              { remote := (c.UpdateRateLimit w.remote ids.cisID ids.zoneID ids.recordID rec).2
                calls := w.calls ++
                  [Call.UpdateRateLimit ids.cisID ids.zoneID ids.recordID rec] }))) := by
  constructor
  · intro hno
    have hch := hasChange_false d hno
    have hz : ({} : RateLimitRecord) = zeroRecord := rfl
    have h1 : ∀ e, (c.UpdateRateLimit w.remote ids.cisID ids.zoneID ids.recordID zeroRecord).1.2
        = some e →
        resourceIBMCISRateLimitUpdate cx (ClientSession.mk (Except.ok c)) d w =
          Except.ok (some ("Failed to update RateLimit: " ++ e), d,
            { remote :=
                (c.UpdateRateLimit w.remote ids.cisID ids.zoneID ids.recordID zeroRecord).2
              calls := w.calls ++
                [Call.UpdateRateLimit ids.cisID ids.zoneID ids.recordID zeroRecord] }) := by
      intro e he
      simp [resourceIBMCISRateLimitUpdate, hids, hch, hz, he, bind, Except.bind, pure,
        Except.pure]
    have h2 : (c.UpdateRateLimit w.remote ids.cisID ids.zoneID ids.recordID zeroRecord).1.2
        = none →
        resourceIBMCISRateLimitUpdate cx (ClientSession.mk (Except.ok c)) d w =
          resourceIBMCISRateLimitRead cx (ClientSession.mk (Except.ok c)) d
            { remote :=
                (c.UpdateRateLimit w.remote ids.cisID ids.zoneID ids.recordID zeroRecord).2
              calls := w.calls ++
                [Call.UpdateRateLimit ids.cisID ids.zoneID ids.recordID zeroRecord] } := by
      intro he
      simp [resourceIBMCISRateLimitUpdate, hids, hch, hz, he, bind, Except.bind, pure,
        Except.pure]
    refine ⟨h1, h2, ?_⟩
    intro res hres
    cases he : (c.UpdateRateLimit w.remote ids.cisID ids.zoneID ids.recordID zeroRecord).1.2 with
    | some e =>
      rw [h1 e he] at hres
      simp at hres
      left
      rw [← hres]
    | none =>
      rw [h2 he] at hres
      have := read_calls cx (ClientSession.mk (Except.ok c)) c d _ res rfl hres
      right
      rw [this, hids]
      simp
  · intro hsome
    have hu := update_changed cx c d w (hasChange_true d hsome)
    rw [hids] at hu
    refine ⟨?_, ?_, ?_, ?_⟩
    · intro p hf
      rw [hu, hf]
    · intro rec e hf
      rw [hu, hf]
    · intro a e ha res hres
      rw [hu] at hres
      cases hf : resourceIBMCISRateLimitUpdate.fields d with
      | error p => rw [hf] at hres; simp at hres
      | ok built =>
        obtain ⟨rec, err⟩ := built
        cases err with
        | some e' =>
          rw [hf] at hres
          simp at hres
          rw [← hres]
          exact ⟨rfl, rfl, rfl⟩
        | none =>
          obtain ⟨a', _, _, _, ha', _⟩ := fields_sent d rec hf
          rw [ha] at ha'
          simp at ha'
    · intro rec hf
      obtain ⟨a, m, cor, b, ha, hm, hc, hb, ra, rm, rc, rb, _⟩ := fields_sent d rec hf
      refine ⟨⟨a, m, cor, b, ha, hm, hc, hb, ra, rm, rc, rb⟩, ?_, ?_⟩
      · intro e he
        rw [hu, hf]
        simp [he]
      · intro he
        rw [hu, hf]
        simp [he]

/-- Witness of C9 (amended). With no pending change and an action block that expand rejects,
Update issues the call with the zero-valued record and goes on to Read; with a pending change
and an accepted configuration, it issues the call with the expanded record and goes on to
Read. -/
theorem update_by_change_witness :
    resourceIBMCISRateLimitUpdate (specCodec ':')
        (ClientSession.mk (Except.ok (fixedClient (some fullRecord, none) (none, none) none)))
        unchangedRule emptyWorld =
      resourceIBMCISRateLimitRead (specCodec ':')
        (ClientSession.mk (Except.ok (fixedClient (some fullRecord, none) (none, none) none)))
        unchangedRule
        { remote := (), calls := [] ++ [Call.UpdateRateLimit "cis1" "zone1" "rule1" zeroRecord] } ∧
    resourceIBMCISRateLimitUpdate (specCodec ':')
        (ClientSession.mk (Except.ok (fixedClient (some fullRecord, none) (none, none) none)))
        changedRule emptyWorld =
      resourceIBMCISRateLimitRead (specCodec ':')
        (ClientSession.mk (Except.ok (fixedClient (some fullRecord, none) (none, none) none)))
        changedRule
        { remote := ()
          calls := [] ++ [Call.UpdateRateLimit "cis1" "zone1" "rule1" changedRecord] } :=
  ⟨((update_by_change (specCodec ':')
      (fixedClient (some fullRecord, none) (none, none) none) unchangedRule emptyWorld
      ⟨"rule1", "zone1", "cis1", none⟩ (by decide)).1 (by decide)).2.1 rfl,
   ((((update_by_change (specCodec ':')
      (fixedClient (some fullRecord, none) (none, none) none) changedRule emptyWorld
      ⟨"rule1", "zone1", "cis1", none⟩ (by decide)).2
        ⟨"threshold", by decide, rfl⟩).2.2.2 changedRecord rfl).2.2) rfl⟩

/-- C8 fails on the code. The identifier `malformed` has no separator and the three-part
decode returns an error for it, yet each of Read, Update, Delete and Exists goes on to call
the remote client with the identifiers the decode returned, and reports what the remote
answers: here no error, and `true` from Exists. -/
theorem malformed_id_reaches_remote :
    ((specCodec ':').convertTfToCisThreeVar malformedRule.Id).err = some "FormatError" ∧
    (resourceIBMCISRateLimitRead (specCodec ':')
        (ClientSession.mk (Except.ok (fixedClient (some fullRecord, none) (none, none) none)))
        malformedRule emptyWorld).map (fun r => (r.1, r.2.2.calls)) =
      Except.ok (none, [Call.GetRateLimit "" "" ""]) ∧
    (resourceIBMCISRateLimitUpdate (specCodec ':')
        (ClientSession.mk (Except.ok (fixedClient (some fullRecord, none) (none, none) none)))
        malformedRule emptyWorld).map (fun r => (r.1, r.2.2.calls)) =
      Except.ok (none, [Call.UpdateRateLimit "" "" "" zeroRecord, Call.GetRateLimit "" "" ""]) ∧
    resourceIBMCISRateLimitDelete (specCodec ':')
        (ClientSession.mk (Except.ok (fixedClient (some fullRecord, none) (none, none) none)))
        malformedRule emptyWorld =
      (none, malformedRule, { remote := (), calls := [Call.DeleteRateLimit "" "" ""] }) ∧
    resourceIBMCISRateLimitExists (specCodec ':')
        (ClientSession.mk (Except.ok (fixedClient (some fullRecord, none) (none, none) none)))
        malformedRule emptyWorld =
      ((true, none), malformedRule, { remote := (), calls := [Call.GetRateLimit "" "" ""] }) :=
  ⟨by decide, rfl, rfl, rfl, rfl⟩

/-- Whatever the decode reports, Delete and Exists issue their remote call with the
identifiers it returned: the error field of the decode is never consulted. -/
theorem delete_exists_call_regardless {σ : Type} (cx : Codec) (c : RateLimitClient σ)
    (d : ResourceData) (w : World σ) :
    (resourceIBMCISRateLimitDelete cx (ClientSession.mk (Except.ok c)) d w).2.2.calls =
      w.calls ++ [Call.DeleteRateLimit (cx.convertTfToCisThreeVar d.Id).cisID
        (cx.convertTfToCisThreeVar d.Id).zoneID (cx.convertTfToCisThreeVar d.Id).recordID] ∧
    (resourceIBMCISRateLimitExists cx (ClientSession.mk (Except.ok c)) d w).2.2.calls =
      w.calls ++ [Call.GetRateLimit (cx.convertTfToCisThreeVar d.Id).cisID
        (cx.convertTfToCisThreeVar d.Id).zoneID (cx.convertTfToCisThreeVar d.Id).recordID] := by
  constructor
  · unfold resourceIBMCISRateLimitDelete
    simp only
    split
    · split <;> rfl
    · rfl
  · unfold resourceIBMCISRateLimitExists
    simp only
    split
    · split <;> rfl
    · rfl

/-- C10 fails on the code. When `GetRateLimit` returns, without error, a record whose
Correlate pointer is nil, `resourceIBMCISRateLimitRead` dereferences it and aborts with a nil
pointer panic instead of completing. -/
theorem read_nil_correlate_panics {σ : Type} (cx : Codec) (c : RateLimitClient σ)
    (d : ResourceData) (w : World σ) (ids : ThreeVar) (rule : RateLimitRecord)
    (hids : cx.convertTfToCisThreeVar d.Id = ids)
    (hget : (c.GetRateLimit w.remote ids.cisID ids.zoneID ids.recordID).1 = (some rule, none))
    (hnil : rule.Correlate = none) :
    resourceIBMCISRateLimitRead cx (ClientSession.mk (Except.ok c)) d w =
      Except.error Panic.nilDereference := by
  simp [resourceIBMCISRateLimitRead, resourceIBMCISRateLimitRead.store, hids, hget, hnil, deref,
    bind, Except.bind, pure, Except.pure, throw, throwThe, MonadExceptOf.throw]

/-- Witness of C10's failure at a record without correlate. -/
theorem read_nil_correlate_panics_witness :
    resourceIBMCISRateLimitRead (specCodec ':')
        (ClientSession.mk (Except.ok (fixedClient (some noCorrelateRecord, none) (none, none) none)))
        storedRule emptyWorld =
      Except.error Panic.nilDereference :=
  read_nil_correlate_panics (specCodec ':')
    (fixedClient (some noCorrelateRecord, none) (none, none) none) storedRule emptyWorld
    ⟨"rule1", "zone1", "cis1", none⟩ noCorrelateRecord (by decide) rfl rfl

/-- When the fetched record carries a correlate value, Read completes without error, keeps
the identifier, and returns the state after the eleven writes of lines 292-302, which put
threshold, period, description, disabled and the flattened action, match, correlate and
bypass under their keys. -/
theorem read_with_correlate {σ : Type} (cx : Codec) (c : RateLimitClient σ)
    (d : ResourceData) (w : World σ) (ids : ThreeVar) (rule : RateLimitRecord)
    (correlate : RateLimitCorrelate)
    (hids : cx.convertTfToCisThreeVar d.Id = ids)
    (hget : (c.GetRateLimit w.remote ids.cisID ids.zoneID ids.recordID).1 = (some rule, none))
    (hcor : rule.Correlate = some correlate) :
    resourceIBMCISRateLimitRead cx (ClientSession.mk (Except.ok c)) d w =
      Except.ok (none,
        (((((((((((d.Set "cis_id" (Value.str ids.cisID)).Set "domain_id"
          (Value.str (cx.convertCisToTfTwoVar ids.zoneID ids.cisID))).Set "rule_id"
          (Value.str ids.recordID)).Set "disabled" (Value.bool rule.Disabled)).Set "description"
          (Value.str rule.Description)).Set "threshold" (Value.int rule.Threshold)).Set "period"
          (Value.int rule.Period)).Set "action"
          (Value.ofMaps (flattenRateLimitAction rule.Action))).Set "match"
          (Value.ofMaps (flattenRateLimitMatch rule.Match))).Set "correlate"
          (Value.ofMaps (flattenRateLimitCorrelate correlate))).Set "bypass"
          (Value.ofMaps (flattenRateLimitByPass rule.Bypass))),
        { remote := (c.GetRateLimit w.remote ids.cisID ids.zoneID ids.recordID).2
          calls := w.calls ++ [Call.GetRateLimit ids.cisID ids.zoneID ids.recordID] }) := by
  simp [resourceIBMCISRateLimitRead, resourceIBMCISRateLimitRead.store, hids, hget, hcor, deref,
    bind, Except.bind, pure, Except.pure, cisRLThreshold, cisRLPeriod, cisRLDescription]

end RateLimit
